import Mathlib

/-!
Verification of the CSV-ingestion and analytics-aggregation core of the
FOSSEE equipment-data web application.

The embedding follows the Python source:
* `src/backend/apps/equipment/services/csv_parser.py` (`CSVParserService`)
* `src/backend/apps/equipment/services/analytics.py` (`AnalyticsService`)
* `src/backend/apps/equipment/views.py` (`_enforce_dataset_limit`)

Numeric cell values are modelled as exact rationals (`ℚ`); floating-point
round-off is outside the scope of the stated claims.  The pandas notion of a
missing value (`NaN`) is modelled by an explicit `na` cell constructor.
-/

namespace Csv

/-- A cell of a parsed DataFrame, as produced by `pd.read_csv`.
`na` is a missing value (NaN); `num` is a numeric cell; `txt s p` is a text
cell whose content is `s`, carrying as data `p`, the numeric value that
`pd.to_numeric(errors='coerce')` would extract from `s` (`none` when the text
is not numeric).  The string-to-number grammar itself is external pandas
behaviour, so it enters the model as the `p` component of the input. -/
inductive Cell where
  | na : Cell
  | num : ℚ → Cell
  | txt : String → Option ℚ → Cell
  deriving DecidableEq, Repr

/-- A pandas DataFrame: a list of column headers and rows of cells, each row
positionally aligned with the headers. -/
structure DataFrame where
  headers : List String
  rows : List (List Cell)
  deriving DecidableEq, Repr

/-- Model of `pd.DataFrame()` — the empty frame returned on every failure path. -/
def emptyDF : DataFrame := ⟨[], []⟩

/-- Source constant `CSVParserService.REQUIRED_COLUMNS`. -/
def REQUIRED_COLUMNS : List String :=
  ["Equipment Name", "Type", "Flowrate", "Pressure", "Temperature"]

/-- The three numeric columns checked by `_validate_data`. -/
def numericCols : List String := ["Flowrate", "Pressure", "Temperature"]

/-- The two string columns stripped by `_clean_data`. -/
def textCols : List String := ["Equipment Name", "Type"]

/-- Source constant `CSVParserService.COLUMN_MAPPING` as a renaming function. -/
def mapColumn (h : String) : String :=
  if h == "Equipment Name" then "name"
  else if h == "Type" then "type"
  else if h == "Flowrate" then "flowrate"
  else if h == "Pressure" then "pressure"
  else if h == "Temperature" then "temperature"
  else h

/-- Is the cell missing (`pd.isnull`)? -/
def cellIsNA : Cell → Bool
  | .na => true
  | _ => false

/-- Model of `series.astype(str)` on one cell: pandas renders `NaN` as the string
`"nan"` and numbers by their decimal form; text is kept as is. -/
def cellToStr : Cell → String
  | .na => "nan"
  | .num q => toString q
  | .txt s _ => s

/-- One cell of `df[col].astype(str).str.strip()`. -/
def stripCell (c : Cell) : Cell := .txt (cellToStr c).trim none

/-- One cell of `pd.to_numeric(df[col], errors='coerce')`. -/
def coerceCell : Cell → Cell
  | .na => .na
  | .num q => .num q
  | .txt _ p =>
    match p with
    | some q => .num q
    | none => .na

/-- Model of `(cell < 0)` in pandas: `NaN` and text compare as `False`. -/
def cellNeg : Cell → Bool
  | .num q => decide (q < 0)
  | _ => false

/-- Model of `df[col]` for one row: the cell in the column labelled `c` (first
occurrence of the label, `na` when the label is absent or the row is short). -/
def getCell (headers : List String) (r : List Cell) (c : String) : Cell :=
  match headers.findIdx? (· == c) with
  | some i => r.getD i .na
  | none => .na

/-- Set the cell of the column labelled `c` in every row, as
`df[col] = f(df[col])` does (no-op when the label is absent). -/
def updateCol (headers : List String) (rows : List (List Cell)) (c : String)
    (f : Cell → Cell) : List (List Cell) :=
  match headers.findIdx? (· == c) with
  | some i => rows.map (fun r => r.set i (f (r.getD i .na)))
  | none => rows

/-- Python `str.lower` on one ASCII character (the headers at stake are
ASCII; non-ASCII characters pass through unchanged). -/
def lowerChar (c : Char) : Char :=
  if 'A' ≤ c ∧ c ≤ 'Z' then Char.ofNat (c.toNat + 32) else c

/-- Python `str.lower`. -/
def strLower (s : String) : String := ⟨s.data.map lowerChar⟩

/-- Python's whitespace class for `str.strip`. -/
def isWS (c : Char) : Bool :=
  c == ' ' || c == '\t' || c == '\n' || c == '\r' || c == '\x0b' || c == '\x0c'

/-- Python `str.strip`: drop whitespace from both ends. -/
def strTrim (s : String) : String :=
  ⟨((s.data.dropWhile isWS).reverse.dropWhile isWS).reverse⟩

/-- The case-insensitive, whitespace-trimmed header match of
`_validate_columns`: `actual_col.lower().strip() == col.lower()`. -/
def canonMatch (c h : String) : Bool := strTrim (strLower h) == strLower c

/-- Model of `df.rename(columns=\x7bh: c\x7d, inplace=True)` on the header list. -/
def renameHeader (hs : List String) (h c : String) : List String :=
  hs.map (fun x => if x == h then c else x)

/-- The loop body of `_validate_columns`: walk the required columns, rename
the first case-insensitive match to canonical form, and collect the columns
with no match at all. -/
def validateColumnsAux : List String → DataFrame → DataFrame × List String
  | [], df => (df, [])
  | c :: cs, df =>
    if df.headers.contains c then
      validateColumnsAux cs df
    else
      match df.headers.find? (canonMatch c) with
      | some h => validateColumnsAux cs ⟨renameHeader df.headers h c, df.rows⟩
      | none =>
        let r := validateColumnsAux cs df
        (r.1, c :: r.2)

/-- Model of `CSVParserService._validate_columns`: the (possibly renamed) frame and the
list of required columns reported missing. -/
def validateColumns (df : DataFrame) : DataFrame × List String :=
  validateColumnsAux REQUIRED_COLUMNS df

/-- Does some header of `df` match required column `c` case-insensitively
after whitespace-trimming? -/
def hasHeaderFor (df : DataFrame) (c : String) : Bool :=
  df.headers.any (canonMatch c)

/-- The required columns with no case-insensitive match among the headers —
the specification's description of which columns `_validate_columns` must
report missing. -/
def absentRequired (df : DataFrame) : List String :=
  REQUIRED_COLUMNS.filter (fun c => !(hasHeaderFor df c))

/-- Model of `CSVParserService._clean_data`: drop all-missing rows, strip the string
columns, coerce the numeric columns. -/
def cleanData (df : DataFrame) : DataFrame :=
  let rows1 := df.rows.filter (fun r => !(r.all cellIsNA))
  let rows2 := textCols.foldl (fun rs c => updateCol df.headers rs c stripCell) rows1
  let rows3 := numericCols.foldl (fun rs c => updateCol df.headers rs c coerceCell) rows2
  ⟨df.headers, rows3⟩

/-- Does the row have a missing value in one of Flowrate, Pressure,
Temperature (the `dropna(subset=...)` criterion)? -/
def hasMissingNumeric (headers : List String) (r : List Cell) : Bool :=
  cellIsNA (getCell headers r "Flowrate") ||
  cellIsNA (getCell headers r "Pressure") ||
  cellIsNA (getCell headers r "Temperature")

/-- Model of `CSVParserService._validate_data`: returns (success flag, errors
appended, warnings appended).  Note the source computes the dropped frame
`df_clean = df.dropna(subset=[...])` only to count and to test emptiness —
it is a local copy, never returned. -/
def validateData (df : DataFrame) : Bool × List String × List String :=
  if df.rows.isEmpty then
    (false, ["No valid data rows found in the file."], [])
  else
    let nullWarns := REQUIRED_COLUMNS.filterMap (fun c =>
      let n := df.rows.countP (fun r => cellIsNA (getCell df.headers r c))
      if 0 < n then
        some ("Column '" ++ c ++ "' has " ++ toString n ++ " missing values.")
      else none)
    let dropped := df.rows.countP (fun r => hasMissingNumeric df.headers r)
    let dropWarn :=
      if 0 < dropped then
        ["Dropped " ++ toString dropped ++ " rows with missing numeric values."]
      else []
    if df.rows.length - dropped = 0 then
      (false, ["No valid data rows after cleaning."], nullWarns ++ dropWarn)
    else
      let negWarns := numericCols.filterMap (fun c =>
        if df.rows.any (fun r => cellNeg (getCell df.headers r c)) then
          some ("Column '" ++ c ++ "' contains negative values.")
        else none)
      (true, [], nullWarns ++ dropWarn ++ negWarns)

/-- Model of `df.rename(columns=COLUMN_MAPPING)`. -/
def renameModel (df : DataFrame) : DataFrame :=
  ⟨df.headers.map mapColumn, df.rows⟩

/-- The outcome of decoding and `pd.read_csv` on the uploaded byte stream:
pandas either raises `EmptyDataError`, raises `ParserError`, raises some
other exception (e.g. a read error), or yields a DataFrame. -/
inductive ReadOutcome where
  | emptyData : ReadOutcome
  | parserError : String → ReadOutcome
  | otherError : String → ReadOutcome
  | ok : DataFrame → ReadOutcome
  deriving DecidableEq, Repr

/-- Input to `parse_file`: whether the UTF-8 decode fell back to latin-1,
and the `pd.read_csv` outcome. -/
structure ParseInput where
  latin1Fallback : Bool
  outcome : ReadOutcome
  deriving DecidableEq, Repr

/-- The observable result of `parse_file`: the returned DataFrame and
success flag plus the accumulated `self.errors` / `self.warnings`. -/
structure ParseOutcome where
  df : DataFrame
  success : Bool
  errors : List String
  warnings : List String
  deriving DecidableEq, Repr

/-- Model of `CSVParserService.parse_file`. -/
def parse_file (inp : ParseInput) : ParseOutcome :=
  let w0 : List String :=
    if inp.latin1Fallback then
      ["File was not UTF-8 encoded, used latin-1 encoding."]
    else []
  match inp.outcome with
  | .emptyData => ⟨emptyDF, false, ["The uploaded file is empty."], w0⟩
  | .parserError m => ⟨emptyDF, false, ["Failed to parse CSV: " ++ m], w0⟩
  | .otherError m => ⟨emptyDF, false, ["Unexpected error: " ++ m], w0⟩
  | .ok df0 =>
    let vc := validateColumns df0
    if vc.2.isEmpty then
      let df2 := cleanData vc.1
      let vd := validateData df2
      if vd.1 then ⟨renameModel df2, true, [], w0 ++ vd.2.2⟩
      else ⟨emptyDF, false, vd.2.1, w0 ++ vd.2.2⟩
    else
      ⟨emptyDF, false,
        ["Missing required columns: " ++ String.intercalate ", " vc.2], w0⟩

end Csv

namespace Analytics

/-- One equipment row as consumed by `AnalyticsService.compute_analytics`
(the `values('name', 'type', 'flowrate', 'pressure', 'temperature')` shape).
The numeric fields are non-null by the data model. -/
structure Row where
  name : String
  type : String
  flowrate : ℚ
  pressure : ℚ
  temperature : ℚ
  deriving DecidableEq, Repr

/-- Model of `series.mean()`: arithmetic mean (only applied to non-empty series). -/
def mean (l : List ℚ) : ℚ := l.sum / (l.length : ℚ)

/-- Model of `series.min()` (0 for the empty list; only applied non-empty). -/
def listMin : List ℚ → ℚ
  | [] => 0
  | a :: l => l.foldl min a

/-- Model of `series.max()` (0 for the empty list; only applied non-empty). -/
def listMax : List ℚ → ℚ
  | [] => 0
  | a :: l => l.foldl max a

/-- The square of `series.std()` (pandas default `ddof=1`, i.e. the sample
variance with Bessel's correction).  The source stores
`float(series.std())`; since the standard deviation is the square root of
this quantity and square root is not a rational operation, the embedding
carries the squared value exactly — two non-negative standard deviations are
equal exactly when their squares are. -/
def sampleVar (l : List ℚ) : ℚ :=
  ((l.map (fun x => (x - mean l) ^ 2)).sum) / ((l.length : ℚ) - 1)

/-- Guarded standard deviation (squared) of `compute_analytics`:
`float(series.std()) if len(df) > 1 else 0.0`, with `n` the row count of the
frame the guard tests. -/
def guardedStdSq (n : ℕ) (l : List ℚ) : ℚ :=
  if 1 < n then sampleVar l else 0

/-- The distinct values of a list in order of first appearance —
`df['type'].unique()`. -/
def uniqueFirst : List String → List String
  | [] => []
  | a :: l => a :: (uniqueFirst l).filter (fun x => x ≠ a)

/-- Number of rows of type `t`: `len(df[df['type'] == t])`. -/
def typeCount (rows : List Row) (t : String) : ℕ :=
  rows.countP (fun r => r.type == t)

/-- The type/count pairs in first-appearance order (the groups underlying
`value_counts`). -/
def typeCounts (rows : List Row) : List (String × ℕ) :=
  (uniqueFirst (rows.map Row.type)).map (fun t => (t, typeCount rows t))

/-- Insert a pair into a count-descending list, keeping it sorted. -/
def insertDesc (p : String × ℕ) : List (String × ℕ) → List (String × ℕ)
  | [] => [p]
  | q :: l => if p.2 ≤ q.2 then q :: insertDesc p l else p :: q :: l

/-- Sort type/count pairs by descending count (the `sort_values` inside
`value_counts`; the order among equal counts is unspecified in the source —
the model keeps first-appearance order for ties). -/
def sortDesc : List (String × ℕ) → List (String × ℕ)
  | [] => []
  | p :: l => insertDesc p (sortDesc l)

/-- Model of `AnalyticsService._compute_type_distribution`:
`df['type'].value_counts().to_dict()`, an ordered mapping sorted by
descending count. -/
def typeDistribution (rows : List Row) : List (String × ℕ) :=
  sortDesc (typeCounts rows)

/-- The per-field `avg`/`min`/`max`/`std` block (with the standard deviation
represented by its square, see `sampleVar`). -/
structure FieldStats where
  avg : ℚ
  min : ℚ
  max : ℚ
  stdSq : ℚ
  deriving DecidableEq, Repr

/-- The statistics block of one field over a list of values, with the
`len(df) > 1` guard taken from the row count `n`. -/
def fieldStats (n : ℕ) (l : List ℚ) : FieldStats :=
  ⟨mean l, listMin l, listMax l, guardedStdSq n l⟩

/-- One entry of `stats_by_type`. -/
structure TypeStats where
  count : ℕ
  flowrate : FieldStats
  pressure : FieldStats
  temperature : FieldStats
  deriving DecidableEq, Repr

/-- The `stats_by_type` entry for type `t`. -/
def typeStatsFor (rows : List Row) (t : String) : TypeStats :=
  let sub := rows.filter (fun r => r.type == t)
  { count := sub.length
    flowrate := fieldStats sub.length (sub.map Row.flowrate)
    pressure := fieldStats sub.length (sub.map Row.pressure)
    temperature := fieldStats sub.length (sub.map Row.temperature) }

/-- Model of `AnalyticsService._compute_stats_by_type`: keyed by `df['type'].unique()`
in first-appearance order. -/
def statsByType (rows : List Row) : List (String × TypeStats) :=
  (uniqueFirst (rows.map Row.type)).map (fun t => (t, typeStatsFor rows t))

/-- The analytics snapshot returned by `compute_analytics` (standard
deviations carried squared, see `sampleVar`; the two dict-valued entries as
ordered association lists). -/
structure Snapshot where
  total_count : ℕ
  avg_flowrate : ℚ
  avg_pressure : ℚ
  avg_temperature : ℚ
  min_flowrate : ℚ
  max_flowrate : ℚ
  min_pressure : ℚ
  max_pressure : ℚ
  min_temperature : ℚ
  max_temperature : ℚ
  stdSq_flowrate : ℚ
  stdSq_pressure : ℚ
  stdSq_temperature : ℚ
  type_distribution : List (String × ℕ)
  stats_by_type : List (String × TypeStats)
  deriving DecidableEq, Repr

/-- Model of `AnalyticsService._empty_analytics`. -/
def emptyAnalytics : Snapshot :=
  { total_count := 0
    avg_flowrate := 0, avg_pressure := 0, avg_temperature := 0
    min_flowrate := 0, max_flowrate := 0
    min_pressure := 0, max_pressure := 0
    min_temperature := 0, max_temperature := 0
    stdSq_flowrate := 0, stdSq_pressure := 0, stdSq_temperature := 0
    type_distribution := []
    stats_by_type := [] }

/-- Model of `AnalyticsService.compute_analytics`. -/
def compute_analytics (rows : List Row) : Snapshot :=
  if rows.isEmpty then emptyAnalytics
  else
    let fl := rows.map Row.flowrate
    let pr := rows.map Row.pressure
    let te := rows.map Row.temperature
    { total_count := rows.length
      avg_flowrate := mean fl, avg_pressure := mean pr, avg_temperature := mean te
      min_flowrate := listMin fl, max_flowrate := listMax fl
      min_pressure := listMin pr, max_pressure := listMax pr
      min_temperature := listMin te, max_temperature := listMax te
      stdSq_flowrate := guardedStdSq rows.length fl
      stdSq_pressure := guardedStdSq rows.length pr
      stdSq_temperature := guardedStdSq rows.length te
      type_distribution := typeDistribution rows
      stats_by_type := statsByType rows }

/-- One labelled series of the bar chart. -/
structure ChartDataset where
  label : String
  data : List ℚ
  deriving DecidableEq, Repr

/-- The `bar_chart` object of `get_chart_data`. -/
structure BarChart where
  labels : List String
  datasets : List ChartDataset
  deriving DecidableEq, Repr

/-- The `pie_chart` object of `get_chart_data`. -/
structure PieChart where
  labels : List String
  data : List ℕ
  deriving DecidableEq, Repr

/-- The value of `get_chart_data`. -/
structure ChartData where
  bar_chart : BarChart
  pie_chart : PieChart
  deriving DecidableEq, Repr

/-- Fallback for `stats_by_type[t]` (the source would raise `KeyError`;
unreachable because the keys iterated are exactly the stored keys). -/
def defaultTypeStats : TypeStats :=
  ⟨0, ⟨0, 0, 0, 0⟩, ⟨0, 0, 0, 0⟩, ⟨0, 0, 0, 0⟩⟩

/-- Model of `stats_by_type[t]` — association-list lookup. -/
def lookupStats (l : List (String × TypeStats)) (t : String) : TypeStats :=
  (l.lookup t).getD defaultTypeStats

/-- Model of `AnalyticsService.get_chart_data`. -/
def get_chart_data (a : Snapshot) : ChartData :=
  let types := a.stats_by_type.map Prod.fst
  { bar_chart :=
      { labels := types
        datasets :=
          [⟨"Avg Flowrate", types.map (fun t => (lookupStats a.stats_by_type t).flowrate.avg)⟩,
           ⟨"Avg Pressure", types.map (fun t => (lookupStats a.stats_by_type t).pressure.avg)⟩,
           ⟨"Avg Temperature", types.map (fun t => (lookupStats a.stats_by_type t).temperature.avg)⟩] }
    pie_chart :=
      { labels := a.type_distribution.map Prod.fst
        data := a.type_distribution.map Prod.snd } }

end Analytics

namespace Views

/-- What `_enforce_dataset_limit` needs of a `Dataset` row: its identity and
its upload timestamp (modelled as a natural number; larger = more recent). -/
structure DatasetRec where
  id : ℕ
  uploadedAt : ℕ
  deriving DecidableEq, Repr

/-- Newest-first ordering — the `order_by('-uploaded_at')` contract the
storage layer provides to `_enforce_dataset_limit`. -/
def newestFirst (a b : DatasetRec) : Prop := b.uploadedAt ≤ a.uploadedAt

instance : DecidableRel newestFirst :=
  fun a b => Nat.decLe b.uploadedAt a.uploadedAt

/-- Model of `DatasetViewSet._enforce_dataset_limit`: given the user's datasets
newest-first, returns (retained, deleted).  The source deletes
`user_datasets[max_datasets:]` when the count exceeds the limit. -/
def enforceDatasetLimit (maxDatasets : ℕ) (ds : List DatasetRec) :
    List DatasetRec × List DatasetRec :=
  if maxDatasets < ds.length then (ds.take maxDatasets, ds.drop maxDatasets)
  else (ds, [])

end Views

namespace Analytics

/-- The per-field statistics of one field list are internally ordered. -/
def FieldStats.ordered (s : FieldStats) : Prop :=
  s.min ≤ s.avg ∧ s.avg ≤ s.max

/-- All three per-field blocks of a `stats_by_type` entry are ordered. -/
def TypeStats.ordered (s : TypeStats) : Prop :=
  s.flowrate.ordered ∧ s.pressure.ordered ∧ s.temperature.ordered

/-- The snapshot's global min/avg/max triples are internally ordered. -/
def Snapshot.globallyOrdered (a : Snapshot) : Prop :=
  (a.min_flowrate ≤ a.avg_flowrate ∧ a.avg_flowrate ≤ a.max_flowrate) ∧
  (a.min_pressure ≤ a.avg_pressure ∧ a.avg_pressure ≤ a.max_pressure) ∧
  (a.min_temperature ≤ a.avg_temperature ∧ a.avg_temperature ≤ a.max_temperature)

/-- The specification's contract for one stored standard deviation (carried
squared) `v` over value list `l`, with `n` the row count of the relevant
subset: `v` is the Bessel-corrected sample variance
`Σ (x − x̄)² / (n − 1)` when `n > 1`, and exactly `0` when `n ≤ 1`. -/
def sampleStdSpec (n : ℕ) (l : List ℚ) (v : ℚ) : Prop :=
  (1 < n → v = (l.map (fun x => (x - mean l) ^ 2)).sum / ((n : ℚ) - 1)) ∧
  (n ≤ 1 → v = 0)

/-- Example rows: one "A" row and two "B" rows (used to exhibit the label
orderings of the two chart series). -/
def exRows : List Row :=
  [⟨"E1", "A", 1, 1, 1⟩, ⟨"E2", "B", 1, 1, 1⟩, ⟨"E3", "B", 1, 1, 1⟩]

/-- Example: a single row. -/
def oneRow : List Row := [⟨"a", "A", 1, 1, 1⟩]

/-- Example: two rows of the same type with distinct values. -/
def twoRows : List Row := [⟨"a", "A", 1, 1, 1⟩, ⟨"b", "A", 3, 5, 7⟩]

end Analytics

namespace Csv

/-- Does every row of the frame miss one of the three numeric values (the
"zero valid rows after cleaning" condition)? -/
def allRowsMissing (df : DataFrame) : Bool :=
  df.rows.all (fun r => hasMissingNumeric df.headers r)

/-- Example frame: canonical headers, first row complete, second row with a
missing `Pressure` value. -/
def partialDF : DataFrame :=
  ⟨["Equipment Name", "Type", "Flowrate", "Pressure", "Temperature"],
   [[.txt "A" none, .txt "Pump" none, .num 1, .num 2, .num 3],
    [.txt "B" none, .txt "Pump" none, .num 4, .na, .num 6]]⟩

/-- Example frame with no header matching `Pressure` (and a whitespace and
case variant of `Temperature`, which must be accepted). -/
def missDF : DataFrame :=
  ⟨["Equipment Name", "Type", "Flowrate", "temperature "],
   [[.txt "A" none, .txt "Pump" none, .num 1, .num 3]]⟩

/-- Example frame where every required column is present only as a case or
whitespace variant. -/
def variantDF : DataFrame :=
  ⟨["equipment name", "TYPE", " Flowrate ", "pressure", "Temperature"],
   [[.txt "A" none, .txt "Pump" none, .num 1, .num 2, .num 3]]⟩

/-- Example input: `pd.read_csv` raised a `ParserError`. -/
def parserErrInput : ParseInput := ⟨false, .parserError "bad line"⟩

end Csv

namespace Views

/-- Example dataset list, newest first. -/
def exDatasets : List DatasetRec := [⟨1, 30⟩, ⟨2, 20⟩, ⟨3, 10⟩]

end Views

namespace Analytics

theorem mem_uniqueFirst {t : String} : ∀ {l : List String}, t ∈ uniqueFirst l ↔ t ∈ l := by
  intro l
  induction l with
  | nil => simp [uniqueFirst]
  | cons a l ih =>
    simp only [uniqueFirst, List.mem_cons, List.mem_filter]
    constructor
    · rintro (rfl | ⟨h, _⟩)
      · exact .inl rfl
      · exact .inr (ih.1 h)
    · rintro (rfl | h)
      · exact .inl rfl
      · by_cases ht : t = a
        · exact .inl ht
        · exact .inr ⟨ih.2 h, by simpa using ht⟩

theorem nodup_uniqueFirst : ∀ (l : List String), (uniqueFirst l).Nodup := by
  intro l
  induction l with
  | nil => simp [uniqueFirst]
  | cons a l ih =>
    refine List.Nodup.cons ?_ (ih.filter _)
    intro h
    rcases List.mem_filter.1 h with ⟨_, hne⟩
    simp at hne

theorem sum_map_split_of_nodup {α : Type} [DecidableEq α] (f : α → ℕ) {a : α} :
    ∀ {ks : List α}, ks.Nodup → a ∈ ks →
      (ks.map f).sum = f a + ((ks.filter (fun x => x ≠ a)).map f).sum := by
  intro ks
  induction ks with
  | nil => intro _ h; cases h
  | cons k ks ih =>
    intro hnd hmem
    rcases List.mem_cons.1 hmem with rfl | hmem'
    · have hk : ks.filter (fun x => x ≠ a) = ks := by
        refine List.filter_eq_self.2 ?_
        intro x hx
        have : x ≠ a := fun hxa => (List.nodup_cons.1 hnd).1 (hxa ▸ hx)
        simpa using this
      simp only [ne_eq, decide_not] at hk
      simp [hk]
    · have hka : k ≠ a := by
        rintro rfl
        exact (List.nodup_cons.1 hnd).1 hmem'
      have hrec := ih (List.nodup_cons.1 hnd).2 hmem'
      have hdk : (decide (k ≠ a)) = true := by simpa using hka
      simp only [List.map_cons, List.sum_cons, hrec, List.filter_cons, hdk,
        if_pos]
      simp
      omega

theorem sum_countP_uniqueFirst : ∀ (l : List String),
    ((uniqueFirst l).map (fun t => l.countP (fun x => x == t))).sum = l.length := by
  intro l
  induction l with
  | nil => simp [uniqueFirst]
  | cons a l ih =>
    simp only [uniqueFirst, List.map_cons, List.sum_cons]
    have hcnt : ∀ t : String, (a :: l).countP (fun x => x == t) =
        l.countP (fun x => x == t) + (if a = t then 1 else 0) := by
      intro t
      rw [List.countP_cons]
      by_cases h : a = t <;> simp [h]
    have hfilter_map :
        (((uniqueFirst l).filter (fun x => x ≠ a)).map
            (fun t => (a :: l).countP (fun x => x == t))).sum =
        (((uniqueFirst l).filter (fun x => x ≠ a)).map
            (fun t => l.countP (fun x => x == t))).sum := by
      apply congrArg
      apply List.map_congr_left
      intro t ht
      rcases List.mem_filter.1 ht with ⟨_, hne⟩
      have hne' : t ≠ a := by simpa using hne
      rw [hcnt t, if_neg (fun h => hne' h.symm)]
      simp
    rw [hfilter_map, hcnt a, if_pos rfl]
    by_cases hmem : a ∈ l
    · have hsplit := sum_map_split_of_nodup
        (fun t => l.countP (fun x => x == t)) (nodup_uniqueFirst l)
        (mem_uniqueFirst.2 hmem)
      rw [ih] at hsplit
      beta_reduce at hsplit
      simp only [List.length_cons]
      omega
    · have hcnt0 : l.countP (fun x => x == a) = 0 := by
        apply List.countP_eq_zero.2
        intro x hx
        simp only [beq_iff_eq]
        rintro rfl
        exact hmem hx
      have hfe : (uniqueFirst l).filter (fun x => x ≠ a) = uniqueFirst l := by
        refine List.filter_eq_self.2 ?_
        intro x hx
        have hxl : x ∈ l := mem_uniqueFirst.1 hx
        have : x ≠ a := by rintro rfl; exact hmem hxl
        simpa using this
      rw [hfe, ih, hcnt0]
      simp [Nat.add_comm]

theorem insertDesc_perm (p : String × ℕ) :
    ∀ (l : List (String × ℕ)), (insertDesc p l).Perm (p :: l) := by
  intro l
  induction l with
  | nil => simp [insertDesc]
  | cons q l ih =>
    by_cases h : p.2 ≤ q.2
    · simp only [insertDesc, if_pos h]
      exact (ih.cons q).trans (List.Perm.swap p q l)
    · simp [insertDesc, if_neg h]

theorem sortDesc_perm : ∀ (l : List (String × ℕ)), (sortDesc l).Perm l := by
  intro l
  induction l with
  | nil => simp [sortDesc]
  | cons p l ih =>
    exact (insertDesc_perm p (sortDesc l)).trans (ih.cons p)

theorem typeCounts_snd_sum (rows : List Row) :
    ((typeCounts rows).map Prod.snd).sum = rows.length := by
  unfold typeCounts typeCount
  rw [List.map_map]
  have hcnt : ∀ t : String,
      rows.countP (fun r => r.type == t) =
        (rows.map Row.type).countP (fun x => x == t) := by
    intro t
    rw [List.countP_map]
    rfl
  calc ((uniqueFirst (rows.map Row.type)).map
          (Prod.snd ∘ fun t => (t, rows.countP (fun r => r.type == t)))).sum
      = ((uniqueFirst (rows.map Row.type)).map
          (fun t => (rows.map Row.type).countP (fun x => x == t))).sum := by
        apply congrArg
        apply List.map_congr_left
        intro t _
        exact hcnt t
    _ = (rows.map Row.type).length := sum_countP_uniqueFirst _
    _ = rows.length := List.length_map _ _

theorem typeDistribution_snd_sum (rows : List Row) :
    ((typeDistribution rows).map Prod.snd).sum = rows.length := by
  have hperm : ((typeDistribution rows).map Prod.snd).Perm
      ((typeCounts rows).map Prod.snd) :=
    (sortDesc_perm (typeCounts rows)).map Prod.snd
  rw [hperm.sum_eq, typeCounts_snd_sum]

theorem compute_analytics_eq (rows : List Row) (h : rows ≠ []) :
    compute_analytics rows =
      { total_count := rows.length
        avg_flowrate := mean (rows.map Row.flowrate)
        avg_pressure := mean (rows.map Row.pressure)
        avg_temperature := mean (rows.map Row.temperature)
        min_flowrate := listMin (rows.map Row.flowrate)
        max_flowrate := listMax (rows.map Row.flowrate)
        min_pressure := listMin (rows.map Row.pressure)
        max_pressure := listMax (rows.map Row.pressure)
        min_temperature := listMin (rows.map Row.temperature)
        max_temperature := listMax (rows.map Row.temperature)
        stdSq_flowrate := guardedStdSq rows.length (rows.map Row.flowrate)
        stdSq_pressure := guardedStdSq rows.length (rows.map Row.pressure)
        stdSq_temperature := guardedStdSq rows.length (rows.map Row.temperature)
        type_distribution := typeDistribution rows
        stats_by_type := statsByType rows } := by
  have hne : rows.isEmpty = false := by
    cases rows with
    | nil => exact absurd rfl h
    | cons a l => rfl
  simp [compute_analytics, hne]

theorem foldl_min_le_init (l : List ℚ) : ∀ (a : ℚ), l.foldl min a ≤ a := by
  induction l with
  | nil => intro a; simp
  | cons b l ih =>
    intro a
    calc (b :: l).foldl min a = l.foldl min (min a b) := rfl
    _ ≤ min a b := ih (min a b)
    _ ≤ a := min_le_left a b

theorem foldl_min_le_mem (l : List ℚ) :
    ∀ (a : ℚ) (x : ℚ), x ∈ l → l.foldl min a ≤ x := by
  induction l with
  | nil => intro a x hx; cases hx
  | cons b l ih =>
    intro a x hx
    rcases List.mem_cons.1 hx with rfl | hx'
    · calc (x :: l).foldl min a = l.foldl min (min a x) := rfl
      _ ≤ min a x := foldl_min_le_init l (min a x)
      _ ≤ x := min_le_right a x
    · exact ih (min a b) x hx'

theorem listMin_le {l : List ℚ} : ∀ x ∈ l, listMin l ≤ x := by
  intro x hx
  cases l with
  | nil => cases hx
  | cons a l =>
    rcases List.mem_cons.1 hx with rfl | hx'
    · exact (foldl_min_le_init l x).trans le_rfl
    · exact foldl_min_le_mem l a x hx'

theorem init_le_foldl_max (l : List ℚ) : ∀ (a : ℚ), a ≤ l.foldl max a := by
  induction l with
  | nil => intro a; simp
  | cons b l ih =>
    intro a
    calc a ≤ max a b := le_max_left a b
    _ ≤ l.foldl max (max a b) := ih (max a b)
    _ = (b :: l).foldl max a := rfl

theorem mem_le_foldl_max (l : List ℚ) :
    ∀ (a : ℚ) (x : ℚ), x ∈ l → x ≤ l.foldl max a := by
  induction l with
  | nil => intro a x hx; cases hx
  | cons b l ih =>
    intro a x hx
    rcases List.mem_cons.1 hx with rfl | hx'
    · calc x ≤ max a x := le_max_right a x
      _ ≤ l.foldl max (max a x) := init_le_foldl_max l (max a x)
      _ = (x :: l).foldl max a := rfl
    · exact ih (max a b) x hx'

theorem le_listMax {l : List ℚ} : ∀ x ∈ l, x ≤ listMax l := by
  intro x hx
  cases l with
  | nil => cases hx
  | cons a l =>
    rcases List.mem_cons.1 hx with rfl | hx'
    · exact init_le_foldl_max l x
    · exact mem_le_foldl_max l a x hx'

theorem mul_length_le_sum {c : ℚ} :
    ∀ {l : List ℚ}, (∀ x ∈ l, c ≤ x) → c * (l.length : ℚ) ≤ l.sum := by
  intro l
  induction l with
  | nil => intro _; simp
  | cons a l ih =>
    intro h
    have ha : c ≤ a := h a (List.mem_cons_self a l)
    have hl : c * (l.length : ℚ) ≤ l.sum :=
      ih (fun x hx => h x (List.mem_cons_of_mem a hx))
    have : c * ((a :: l).length : ℚ) = c + c * (l.length : ℚ) := by
      simp only [List.length_cons]
      push_cast
      ring
    rw [this, List.sum_cons]
    exact add_le_add ha hl

theorem sum_le_mul_length {c : ℚ} :
    ∀ {l : List ℚ}, (∀ x ∈ l, x ≤ c) → l.sum ≤ c * (l.length : ℚ) := by
  intro l
  induction l with
  | nil => intro _; simp
  | cons a l ih =>
    intro h
    have ha : a ≤ c := h a (List.mem_cons_self a l)
    have hl : l.sum ≤ c * (l.length : ℚ) :=
      ih (fun x hx => h x (List.mem_cons_of_mem a hx))
    have : c * ((a :: l).length : ℚ) = c + c * (l.length : ℚ) := by
      simp only [List.length_cons]
      push_cast
      ring
    rw [this, List.sum_cons]
    exact add_le_add ha hl

theorem listMin_le_mean {l : List ℚ} (h : l ≠ []) : listMin l ≤ mean l := by
  have hlen : (0 : ℚ) < (l.length : ℚ) := by
    have : 0 < l.length := List.length_pos.2 h
    exact_mod_cast this
  rw [mean, le_div_iff₀ hlen]
  exact mul_length_le_sum listMin_le

theorem mean_le_listMax {l : List ℚ} (h : l ≠ []) : mean l ≤ listMax l := by
  have hlen : (0 : ℚ) < (l.length : ℚ) := by
    have : 0 < l.length := List.length_pos.2 h
    exact_mod_cast this
  rw [mean, div_le_iff₀ hlen]
  exact sum_le_mul_length le_listMax

theorem fieldStats_ordered {n : ℕ} {l : List ℚ} (h : l ≠ []) :
    (fieldStats n l).ordered :=
  ⟨listMin_le_mean h, mean_le_listMax h⟩

theorem mem_statsByType {rows : List Row} {t : String} {s : TypeStats}
    (h : (t, s) ∈ statsByType rows) :
    t ∈ uniqueFirst (rows.map Row.type) ∧ s = typeStatsFor rows t := by
  rcases List.mem_map.1 h with ⟨t', ht', heq⟩
  obtain ⟨h1, h2⟩ := Prod.mk.injEq .. ▸ heq
  subst h1
  exact ⟨ht', h2.symm⟩

theorem filter_type_ne_nil {rows : List Row} {t : String}
    (h : t ∈ uniqueFirst (rows.map Row.type)) :
    rows.filter (fun r => r.type == t) ≠ [] := by
  have hmem : t ∈ rows.map Row.type := mem_uniqueFirst.1 h
  rcases List.mem_map.1 hmem with ⟨r, hr, hrt⟩
  have : r ∈ rows.filter (fun r => r.type == t) :=
    List.mem_filter.2 ⟨hr, by simp [hrt]⟩
  exact List.ne_nil_of_mem this

theorem map_type_ne_nil {rows : List Row} (h : rows ≠ [])
    (f : Row → ℚ) : rows.map f ≠ [] := by
  intro hmap
  exact h (List.map_eq_nil_iff.1 hmap)

theorem guardedStdSq_spec {n : ℕ} {l : List ℚ} (hlen : l.length = n) :
    sampleStdSpec n l (guardedStdSq n l) := by
  constructor
  · intro h1
    rw [guardedStdSq, if_pos h1, sampleVar, hlen]
  · intro h1
    rw [guardedStdSq, if_neg (by omega)]

theorem lookup_map_graph {β : Type} (g : String → β) :
    ∀ (ks : List String) (t : String), t ∈ ks →
      (ks.map (fun k => (k, g k))).lookup t = some (g t) := by
  intro ks
  induction ks with
  | nil => intro t ht; cases ht
  | cons k ks ih =>
    intro t ht
    by_cases hk : t = k
    · subst hk
      simp [List.lookup]
    · have ht' : t ∈ ks := by
        rcases List.mem_cons.1 ht with h | h
        · exact absurd h hk
        · exact h
      have hbeq : (t == k) = false := by simpa using hk
      simp [List.lookup, hbeq, ih t ht']

theorem lookupStats_statsByType {rows : List Row} {t : String}
    (h : t ∈ uniqueFirst (rows.map Row.type)) :
    lookupStats (statsByType rows) t = typeStatsFor rows t := by
  rw [statsByType, lookupStats, lookup_map_graph (typeStatsFor rows) _ t h]
  rfl

theorem statsByType_keys (rows : List Row) :
    (statsByType rows).map Prod.fst = uniqueFirst (rows.map Row.type) := by
  rw [statsByType, List.map_map]
  simp [Function.comp_def]

theorem typeCounts_keys (rows : List Row) :
    (typeCounts rows).map Prod.fst = uniqueFirst (rows.map Row.type) := by
  rw [typeCounts, List.map_map]
  simp [Function.comp_def]

theorem distribution_keys_perm (rows : List Row) :
    ((typeDistribution rows).map Prod.fst).Perm
      (uniqueFirst (rows.map Row.type)) := by
  have h1 : ((typeDistribution rows).map Prod.fst).Perm
      ((typeCounts rows).map Prod.fst) :=
    (sortDesc_perm (typeCounts rows)).map Prod.fst
  rw [typeCounts_keys] at h1
  exact h1

end Analytics

/-- Claim C5: `Analytics.compute_analytics` applied to the empty row collection returns
the canonical empty snapshot: `total_count = 0`, every numeric statistic
field (`avg`/`min`/`max` and the standard deviation, carried squared, for
flowrate, pressure and temperature) equals `0.0`, and both the
type-distribution and stats-by-type mappings are empty. -/
theorem C5_empty_snapshot :
    Analytics.compute_analytics [] = Analytics.emptyAnalytics ∧
    (Analytics.compute_analytics []).total_count = 0 ∧
    (Analytics.compute_analytics []).avg_flowrate = 0 ∧
    (Analytics.compute_analytics []).avg_pressure = 0 ∧
    (Analytics.compute_analytics []).avg_temperature = 0 ∧
    (Analytics.compute_analytics []).min_flowrate = 0 ∧
    (Analytics.compute_analytics []).max_flowrate = 0 ∧
    (Analytics.compute_analytics []).min_pressure = 0 ∧
    (Analytics.compute_analytics []).max_pressure = 0 ∧
    (Analytics.compute_analytics []).min_temperature = 0 ∧
    (Analytics.compute_analytics []).max_temperature = 0 ∧
    (Analytics.compute_analytics []).stdSq_flowrate = 0 ∧
    (Analytics.compute_analytics []).stdSq_pressure = 0 ∧
    (Analytics.compute_analytics []).stdSq_temperature = 0 ∧
    (Analytics.compute_analytics []).type_distribution = [] ∧
    (Analytics.compute_analytics []).stats_by_type = [] := by
  refine ⟨rfl, ?_⟩
  repeat' constructor

/-- Claim C7: In every snapshot computed by `Analytics.compute_analytics` the values of
the type-distribution mapping sum to `total_count`, and the pie-chart data
series produced by `get_chart_data` from that snapshot also sums to
`total_count`. -/
theorem C7_distribution_sums_to_total (rows : List Analytics.Row) :
    (((Analytics.compute_analytics rows).type_distribution.map Prod.snd).sum =
        (Analytics.compute_analytics rows).total_count) ∧
    (((Analytics.get_chart_data (Analytics.compute_analytics rows)).pie_chart.data).sum =
        (Analytics.compute_analytics rows).total_count) := by
  have hpie : (Analytics.get_chart_data (Analytics.compute_analytics rows)).pie_chart.data =
      (Analytics.compute_analytics rows).type_distribution.map Prod.snd := rfl
  rw [hpie]
  refine ⟨?_, ?_⟩ <;>
  · by_cases h : rows = []
    · subst h; rfl
    · have hne : rows.isEmpty = false := by
        simpa [List.isEmpty_iff] using h
      simp only [Analytics.compute_analytics, hne, Bool.false_eq_true, if_false]
      exact Analytics.typeDistribution_snd_sum rows

/-- Claim C8: For every non-empty row collection the computed snapshot
satisfies `min(field) ≤ avg(field) ≤ max(field)` for each of flowrate,
pressure and temperature, both over the full row set and within every
type-partition recorded in `stats_by_type`. -/
theorem C8_min_avg_max_ordered (rows : List Analytics.Row) (h : rows ≠ []) :
    (Analytics.compute_analytics rows).globallyOrdered ∧
    ∀ t s, (t, s) ∈ (Analytics.compute_analytics rows).stats_by_type →
      s.ordered := by
  rw [Analytics.compute_analytics_eq rows h]
  constructor
  · exact ⟨⟨Analytics.listMin_le_mean (Analytics.map_type_ne_nil h _),
            Analytics.mean_le_listMax (Analytics.map_type_ne_nil h _)⟩,
           ⟨Analytics.listMin_le_mean (Analytics.map_type_ne_nil h _),
            Analytics.mean_le_listMax (Analytics.map_type_ne_nil h _)⟩,
           ⟨Analytics.listMin_le_mean (Analytics.map_type_ne_nil h _),
            Analytics.mean_le_listMax (Analytics.map_type_ne_nil h _)⟩⟩
  · intro t s hmem
    obtain ⟨ht, hs⟩ := Analytics.mem_statsByType hmem
    subst hs
    have hsub : rows.filter (fun r => r.type == t) ≠ [] :=
      Analytics.filter_type_ne_nil ht
    exact ⟨Analytics.fieldStats_ordered (Analytics.map_type_ne_nil hsub _),
           Analytics.fieldStats_ordered (Analytics.map_type_ne_nil hsub _),
           Analytics.fieldStats_ordered (Analytics.map_type_ne_nil hsub _)⟩

/-- Witness for C8 at a concrete non-empty row collection. -/
theorem C8_min_avg_max_ordered_witness :
    (Analytics.compute_analytics Analytics.exRows).globallyOrdered ∧
    ∀ t s, (t, s) ∈ (Analytics.compute_analytics Analytics.exRows).stats_by_type →
      s.ordered :=
  C8_min_avg_max_ordered Analytics.exRows (by decide)

/-- Claim C6: In every computed snapshot, each stored standard deviation
(carried squared in this embedding) obeys the sample-standard-deviation
contract: for the three global fields it is the Bessel-corrected
(`N − 1`-divided) sample variance of the corresponding column when the row
set has more than one row and exactly `0` when it has at most one; and every
per-type entry of `stats_by_type` obeys the same contract over its
type-partition. -/
theorem C6_std_sample_semantics (rows : List Analytics.Row) :
    (Analytics.sampleStdSpec rows.length (rows.map Analytics.Row.flowrate)
        (Analytics.compute_analytics rows).stdSq_flowrate ∧
     Analytics.sampleStdSpec rows.length (rows.map Analytics.Row.pressure)
        (Analytics.compute_analytics rows).stdSq_pressure ∧
     Analytics.sampleStdSpec rows.length (rows.map Analytics.Row.temperature)
        (Analytics.compute_analytics rows).stdSq_temperature) ∧
    ∀ t s, (t, s) ∈ (Analytics.compute_analytics rows).stats_by_type →
      Analytics.sampleStdSpec (rows.filter (fun r => r.type == t)).length
        ((rows.filter (fun r => r.type == t)).map Analytics.Row.flowrate)
        s.flowrate.stdSq ∧
      Analytics.sampleStdSpec (rows.filter (fun r => r.type == t)).length
        ((rows.filter (fun r => r.type == t)).map Analytics.Row.pressure)
        s.pressure.stdSq ∧
      Analytics.sampleStdSpec (rows.filter (fun r => r.type == t)).length
        ((rows.filter (fun r => r.type == t)).map Analytics.Row.temperature)
        s.temperature.stdSq := by
  by_cases h : rows = []
  · subst h
    refine ⟨⟨?_, ?_, ?_⟩, ?_⟩
    · exact ⟨fun h1 => absurd h1 (by decide), fun _ => rfl⟩
    · exact ⟨fun h1 => absurd h1 (by decide), fun _ => rfl⟩
    · exact ⟨fun h1 => absurd h1 (by decide), fun _ => rfl⟩
    · intro t s hmem
      cases hmem
  · rw [Analytics.compute_analytics_eq rows h]
    refine ⟨⟨?_, ?_, ?_⟩, ?_⟩
    · exact Analytics.guardedStdSq_spec (List.length_map rows _)
    · exact Analytics.guardedStdSq_spec (List.length_map rows _)
    · exact Analytics.guardedStdSq_spec (List.length_map rows _)
    · intro t s hmem
      obtain ⟨ht, hs⟩ := Analytics.mem_statsByType hmem
      subst hs
      exact ⟨Analytics.guardedStdSq_spec (List.length_map _ _),
             Analytics.guardedStdSq_spec (List.length_map _ _),
             Analytics.guardedStdSq_spec (List.length_map _ _)⟩

/-- Witness for C6: the `N > 1` branch at a two-row collection and the
`N ≤ 1` branch at a one-row collection. -/
theorem C6_std_sample_semantics_witness :
    ((Analytics.compute_analytics Analytics.twoRows).stdSq_flowrate =
      ((Analytics.twoRows.map Analytics.Row.flowrate).map
          (fun x => (x - Analytics.mean
            (Analytics.twoRows.map Analytics.Row.flowrate)) ^ 2)).sum /
        ((Analytics.twoRows.length : ℚ) - 1)) ∧
    ((Analytics.compute_analytics Analytics.oneRow).stdSq_flowrate = 0) :=
  ⟨((C6_std_sample_semantics Analytics.twoRows).1.1).1 (by decide),
   ((C6_std_sample_semantics Analytics.oneRow).1.1).2 (by decide)⟩

/-- Claim C10: For every non-empty row collection, `stats_by_type` and
`type_distribution` carry exactly the same set of type keys, and each
`stats_by_type` entry's `count` field equals that type's value in
`type_distribution`. -/
theorem C10_keys_and_counts_agree (rows : List Analytics.Row)
    (h : rows ≠ []) :
    ((Analytics.compute_analytics rows).stats_by_type.map Prod.fst).Perm
      ((Analytics.compute_analytics rows).type_distribution.map Prod.fst) ∧
    ∀ t s, (t, s) ∈ (Analytics.compute_analytics rows).stats_by_type →
      (t, s.count) ∈ (Analytics.compute_analytics rows).type_distribution := by
  rw [Analytics.compute_analytics_eq rows h]
  constructor
  · have h1 := Analytics.distribution_keys_perm rows
    have h2 := Analytics.statsByType_keys rows
    exact h2 ▸ h1.symm
  · intro t s hmem
    obtain ⟨ht, hs⟩ := Analytics.mem_statsByType hmem
    subst hs
    have hcount : (Analytics.typeStatsFor rows t).count =
        Analytics.typeCount rows t := by
      rw [Analytics.typeStatsFor, Analytics.typeCount,
        List.countP_eq_length_filter]
    rw [hcount]
    have hmem' : (t, Analytics.typeCount rows t) ∈ Analytics.typeCounts rows :=
      List.mem_map.2 ⟨t, ht, rfl⟩
    exact (Analytics.sortDesc_perm (Analytics.typeCounts rows)).mem_iff.2 hmem'

/-- Witness for C10 at a concrete non-empty row collection. -/
theorem C10_keys_and_counts_agree_witness :
    ((Analytics.compute_analytics Analytics.exRows).stats_by_type.map Prod.fst).Perm
      ((Analytics.compute_analytics Analytics.exRows).type_distribution.map Prod.fst) ∧
    ∀ t s, (t, s) ∈ (Analytics.compute_analytics Analytics.exRows).stats_by_type →
      (t, s.count) ∈ (Analytics.compute_analytics Analytics.exRows).type_distribution :=
  C10_keys_and_counts_agree Analytics.exRows (by decide)

/-- Claim C2 counterexample: On a concrete snapshot (one "A" row, two "B"
rows) the pie-chart labels (`["B", "A"]`, descending count order from
`value_counts`) differ from the bar-chart labels (`["A", "B"]`,
first-appearance order from `unique()`): the two label lists are NOT in the
same order, refuting the claim as stated. -/
theorem C2_label_order_counterexample :
    (Analytics.get_chart_data (Analytics.compute_analytics Analytics.exRows)).pie_chart.labels ≠
    (Analytics.get_chart_data (Analytics.compute_analytics Analytics.exRows)).bar_chart.labels := by
  decide

/-- Claim C2 amended: For every non-empty row collection: the pie-chart and
bar-chart label lists contain the same type names as each other (as a
permutation — pie labels are ordered by descending count, bar labels by
first appearance, so the orders may differ); the three bar datasets are
labelled avg-flowrate/avg-pressure/avg-temperature; and each bar dataset is
index-aligned with the bar-chart label list, its `i`-th entry being the
average of that field over the type-partition of the `i`-th bar label. -/
theorem C2_chart_alignment (rows : List Analytics.Row) (h : rows ≠ []) :
    ((Analytics.get_chart_data (Analytics.compute_analytics rows)).pie_chart.labels).Perm
      ((Analytics.get_chart_data (Analytics.compute_analytics rows)).bar_chart.labels) ∧
    ((Analytics.get_chart_data (Analytics.compute_analytics rows)).bar_chart.datasets.map
        Analytics.ChartDataset.label) =
      ["Avg Flowrate", "Avg Pressure", "Avg Temperature"] ∧
    ((Analytics.get_chart_data (Analytics.compute_analytics rows)).bar_chart.datasets.map
        Analytics.ChartDataset.data) =
      [((Analytics.get_chart_data (Analytics.compute_analytics rows)).bar_chart.labels).map
          (fun t => Analytics.mean
            ((rows.filter (fun r => r.type == t)).map Analytics.Row.flowrate)),
       ((Analytics.get_chart_data (Analytics.compute_analytics rows)).bar_chart.labels).map
          (fun t => Analytics.mean
            ((rows.filter (fun r => r.type == t)).map Analytics.Row.pressure)),
       ((Analytics.get_chart_data (Analytics.compute_analytics rows)).bar_chart.labels).map
          (fun t => Analytics.mean
            ((rows.filter (fun r => r.type == t)).map Analytics.Row.temperature))] := by
  rw [Analytics.compute_analytics_eq rows h]
  have hkeys :
      (Analytics.get_chart_data
        { total_count := rows.length
          avg_flowrate := Analytics.mean (rows.map Analytics.Row.flowrate)
          avg_pressure := Analytics.mean (rows.map Analytics.Row.pressure)
          avg_temperature := Analytics.mean (rows.map Analytics.Row.temperature)
          min_flowrate := Analytics.listMin (rows.map Analytics.Row.flowrate)
          max_flowrate := Analytics.listMax (rows.map Analytics.Row.flowrate)
          min_pressure := Analytics.listMin (rows.map Analytics.Row.pressure)
          max_pressure := Analytics.listMax (rows.map Analytics.Row.pressure)
          min_temperature := Analytics.listMin (rows.map Analytics.Row.temperature)
          max_temperature := Analytics.listMax (rows.map Analytics.Row.temperature)
          stdSq_flowrate := Analytics.guardedStdSq rows.length (rows.map Analytics.Row.flowrate)
          stdSq_pressure := Analytics.guardedStdSq rows.length (rows.map Analytics.Row.pressure)
          stdSq_temperature := Analytics.guardedStdSq rows.length (rows.map Analytics.Row.temperature)
          type_distribution := Analytics.typeDistribution rows
          stats_by_type := Analytics.statsByType rows }).bar_chart.labels =
        Analytics.uniqueFirst (rows.map Analytics.Row.type) :=
    Analytics.statsByType_keys rows
  refine ⟨?_, rfl, ?_⟩
  · rw [hkeys]
    exact Analytics.distribution_keys_perm rows
  · rw [hkeys]
    have hlook : ∀ t ∈ Analytics.uniqueFirst (rows.map Analytics.Row.type),
        Analytics.lookupStats (Analytics.statsByType rows) t =
          Analytics.typeStatsFor rows t :=
      fun t ht => Analytics.lookupStats_statsByType ht
    simp only [Analytics.get_chart_data, Analytics.statsByType_keys,
      List.map_cons, List.map_nil]
    refine congrArg₂ _ ?_ (congrArg₂ _ ?_ (congrArg₂ _ ?_ rfl)) <;>
    · apply List.map_congr_left
      intro t ht
      rw [hlook t ht]
      rfl

/-- Witness for the amended C2 at a concrete non-empty row collection. -/
theorem C2_chart_alignment_witness :
    ((Analytics.get_chart_data (Analytics.compute_analytics Analytics.exRows)).pie_chart.labels).Perm
      ((Analytics.get_chart_data (Analytics.compute_analytics Analytics.exRows)).bar_chart.labels) ∧
    ((Analytics.get_chart_data (Analytics.compute_analytics Analytics.exRows)).bar_chart.datasets.map
        Analytics.ChartDataset.label) =
      ["Avg Flowrate", "Avg Pressure", "Avg Temperature"] ∧
    ((Analytics.get_chart_data (Analytics.compute_analytics Analytics.exRows)).bar_chart.datasets.map
        Analytics.ChartDataset.data) =
      [((Analytics.get_chart_data (Analytics.compute_analytics Analytics.exRows)).bar_chart.labels).map
          (fun t => Analytics.mean
            ((Analytics.exRows.filter (fun r => r.type == t)).map Analytics.Row.flowrate)),
       ((Analytics.get_chart_data (Analytics.compute_analytics Analytics.exRows)).bar_chart.labels).map
          (fun t => Analytics.mean
            ((Analytics.exRows.filter (fun r => r.type == t)).map Analytics.Row.pressure)),
       ((Analytics.get_chart_data (Analytics.compute_analytics Analytics.exRows)).bar_chart.labels).map
          (fun t => Analytics.mean
            ((Analytics.exRows.filter (fun r => r.type == t)).map Analytics.Row.temperature))] :=
  C2_chart_alignment Analytics.exRows (by decide)

namespace Csv

theorem validateData_false_errors (df : DataFrame) :
    (validateData df).1 = false → (validateData df).2.1 ≠ [] := by
  simp only [validateData]
  split_ifs <;> simp

theorem validateData_false_of_allMissing (df : DataFrame)
    (h : allRowsMissing df = true) : (validateData df).1 = false := by
  have hcnt : df.rows.countP (fun r => hasMissingNumeric df.headers r) =
      df.rows.length :=
    List.countP_eq_length.2 (fun r hr => List.all_eq_true.1 h r hr)
  by_cases h1 : df.rows.isEmpty
  · simp [validateData, h1]
  · simp [validateData, h1, hcnt, Nat.sub_self]

end Csv

/-- Claim C3: `parse_file` never raises (it is a total function of the read
outcome): whenever it reports failure the errors list is non-empty and the
returned row collection is empty, and each anticipated failure mode — empty
file, unparseable CSV, any other exception, missing required columns, zero
valid rows after the numeric-missing drop — does report failure. -/
theorem C3_failure_semantics (inp : Csv.ParseInput) :
    ((Csv.parse_file inp).success = false →
        (Csv.parse_file inp).errors ≠ [] ∧ (Csv.parse_file inp).df.rows = []) ∧
    (inp.outcome = .emptyData → (Csv.parse_file inp).success = false) ∧
    (∀ m, inp.outcome = .parserError m → (Csv.parse_file inp).success = false) ∧
    (∀ m, inp.outcome = .otherError m → (Csv.parse_file inp).success = false) ∧
    (∀ df, inp.outcome = .ok df → (Csv.validateColumns df).2 ≠ [] →
        (Csv.parse_file inp).success = false) ∧
    (∀ df, inp.outcome = .ok df →
        Csv.allRowsMissing (Csv.cleanData (Csv.validateColumns df).1) = true →
        (Csv.parse_file inp).success = false) := by
  obtain ⟨b, outc⟩ := inp
  cases outc with
  | emptyData =>
    refine ⟨fun _ => ?_, ?_, ?_, ?_, ?_, ?_⟩ <;> simp [Csv.parse_file, Csv.emptyDF]
  | parserError m =>
    refine ⟨fun _ => ?_, ?_, ?_, ?_, ?_, ?_⟩ <;> simp [Csv.parse_file, Csv.emptyDF]
  | otherError m =>
    refine ⟨fun _ => ?_, ?_, ?_, ?_, ?_, ?_⟩ <;> simp [Csv.parse_file, Csv.emptyDF]
  | ok df =>
    refine ⟨?_, by simp, by simp, by simp, ?_, ?_⟩
    · intro hfail
      by_cases hvc : (Csv.validateColumns df).2.isEmpty
      · by_cases hvd : (Csv.validateData (Csv.cleanData (Csv.validateColumns df).1)).1 = true
        · exfalso
          simp [Csv.parse_file, hvc, hvd] at hfail
        · have hvd' : (Csv.validateData (Csv.cleanData (Csv.validateColumns df).1)).1 = false :=
            Bool.not_eq_true _ ▸ (by simpa using hvd)
          constructor
          · have herr := Csv.validateData_false_errors _ hvd'
            simpa [Csv.parse_file, hvc, hvd'] using herr
          · simp [Csv.parse_file, hvc, hvd', Csv.emptyDF]
      · constructor
        · simp [Csv.parse_file, hvc]
        · simp [Csv.parse_file, hvc, Csv.emptyDF]
    · intro df' heq hne
      obtain rfl : df' = df := by injection heq with h; exact h.symm
      have hvc : (Csv.validateColumns df').2.isEmpty = false := by
        cases hl : (Csv.validateColumns df').2 with
        | nil => exact absurd hl hne
        | cons e es => simp
      simp [Csv.parse_file, hvc]
    · intro df' heq hall
      obtain rfl : df' = df := by injection heq with h; exact h.symm
      by_cases hvc : (Csv.validateColumns df').2.isEmpty
      · have hvd : (Csv.validateData (Csv.cleanData (Csv.validateColumns df').1)).1 = false :=
          Csv.validateData_false_of_allMissing _ hall
        simp [Csv.parse_file, hvc, hvd]
      · have hvc' : (Csv.validateColumns df').2.isEmpty = false := by
          simpa using hvc
        simp [Csv.parse_file, hvc']

/-- Witness for C3: a concrete `ParserError` input fails with a non-empty
error list and an empty row collection. -/
theorem C3_failure_semantics_witness :
    ((Csv.parse_file Csv.parserErrInput).success = false) ∧
    ((Csv.parse_file Csv.parserErrInput).errors ≠ [] ∧
      (Csv.parse_file Csv.parserErrInput).df.rows = []) :=
  ⟨(C3_failure_semantics Csv.parserErrInput).2.2.1 "bad line" rfl,
   (C3_failure_semantics Csv.parserErrInput).1 (by decide)⟩

namespace Csv

theorem any_eq_of_ptwise {α : Type} (l : List α) {p q : α → Bool}
    (h : ∀ x, p x = q x) : l.any p = l.any q := by
  have hpq : p = q := funext h
  rw [hpq]

theorem canonMatch_of_canonical {c : String}
    (hc : strTrim (strLower c) = strLower c) : canonMatch c c = true := by
  rw [canonMatch, hc]
  exact beq_self_eq_true _

theorem canonMatch_rename_ptwise {c c' h : String}
    (hh : canonMatch c h = true)
    (hc : strTrim (strLower c) = strLower c)
    (hne : strLower c ≠ strLower c') :
    ∀ x, canonMatch c' (if x == h then c else x) = canonMatch c' x := by
  intro x
  by_cases hx : x = h
  · subst hx
    rw [if_pos (beq_self_eq_true x)]
    have h1 : canonMatch c' c = false := by
      rw [canonMatch, hc]
      exact beq_eq_false_iff_ne.2 hne
    have h2 : canonMatch c' x = false := by
      rw [canonMatch] at hh ⊢
      rw [eq_of_beq hh]
      exact beq_eq_false_iff_ne.2 hne
    rw [h1, h2]
  · have hb : (x == h) = false := beq_eq_false_iff_ne.2 hx
    rw [hb]
    simp

theorem validateColumnsAux_missing :
    ∀ (cs : List String) (df : DataFrame),
      (∀ c ∈ cs, strTrim (strLower c) = strLower c) →
      cs.Pairwise (fun a b => strLower a ≠ strLower b) →
      (validateColumnsAux cs df).2 =
        cs.filter (fun c => !(df.headers.any (canonMatch c))) := by
  intro cs
  induction cs with
  | nil => intro df _ _; rfl
  | cons c cs ih =>
    intro df hcanon hnd
    obtain ⟨hndc, hnd'⟩ := List.pairwise_cons.1 hnd
    have hc : strTrim (strLower c) = strLower c := hcanon c (List.mem_cons_self c cs)
    have hcanon' : ∀ x ∈ cs, strTrim (strLower x) = strLower x :=
      fun x hx => hcanon x (List.mem_cons_of_mem c hx)
    by_cases hcont : df.headers.contains c
    · have hmem : c ∈ df.headers := by simpa using hcont
      have hany : df.headers.any (canonMatch c) = true :=
        List.any_eq_true.2 ⟨c, hmem, canonMatch_of_canonical hc⟩
      have hstep : validateColumnsAux (c :: cs) df = validateColumnsAux cs df := by
        rw [validateColumnsAux, if_pos hcont]
      rw [hstep, ih df hcanon' hnd', List.filter_cons]
      simp [hany]
    · have hcont' : df.headers.contains c = false := by simpa using hcont
      cases hfind : df.headers.find? (canonMatch c) with
      | some h =>
        have hh : canonMatch c h = true := List.find?_some hfind
        have hstep : validateColumnsAux (c :: cs) df =
            validateColumnsAux cs ⟨renameHeader df.headers h c, df.rows⟩ := by
          rw [validateColumnsAux, if_neg hcont, hfind]
        have hany : df.headers.any (canonMatch c) = true :=
          List.any_eq_true.2 ⟨h, List.mem_of_find?_eq_some hfind, hh⟩
        have hanys : ∀ c' ∈ cs,
            (renameHeader df.headers h c).any (canonMatch c') =
              df.headers.any (canonMatch c') := by
          intro c' hc'
          rw [renameHeader, List.any_map]
          exact any_eq_of_ptwise df.headers
            (canonMatch_rename_ptwise hh hc (hndc c' hc'))
        rw [hstep, ih _ hcanon' hnd', List.filter_cons]
        simp only [hany, Bool.not_true, Bool.false_eq_true, if_false]
        exact List.filter_congr (fun x hx => by rw [hanys x hx])
      | none =>
        have hnone : ∀ x ∈ df.headers, ¬(canonMatch c x = true) :=
          fun x hx => by
            have := List.find?_eq_none.1 hfind x hx
            simpa using this
        have hany : df.headers.any (canonMatch c) = false := by
          rw [List.any_eq_false]
          intro x hx
          exact hnone x hx
        have hstep : (validateColumnsAux (c :: cs) df).2 =
            c :: (validateColumnsAux cs df).2 := by
          rw [validateColumnsAux, if_neg hcont, hfind]
        rw [hstep, ih df hcanon' hnd', List.filter_cons]
        simp [hany]

end Csv

namespace Csv

theorem validateColumnsAux_keeps :
    ∀ (cs : List String) (df : DataFrame) (s : String),
      (∀ c ∈ cs, canonMatch c s = false) →
      s ∈ df.headers → s ∈ (validateColumnsAux cs df).1.headers := by
  intro cs
  induction cs with
  | nil => intro df s _ hs; exact hs
  | cons c cs ih =>
    intro df s hs hmem
    have hcs : ∀ c' ∈ cs, canonMatch c' s = false :=
      fun c' h' => hs c' (List.mem_cons_of_mem c h')
    by_cases hcont : df.headers.contains c
    · rw [validateColumnsAux, if_pos hcont]
      exact ih df s hcs hmem
    · cases hfind : df.headers.find? (canonMatch c) with
      | some h =>
        rw [validateColumnsAux, if_neg hcont, hfind]
        apply ih _ s hcs
        have hsh : s ≠ h := by
          intro hsh
          have hh : canonMatch c h = true := List.find?_some hfind
          rw [← hsh] at hh
          rw [hs c (List.mem_cons_self c cs)] at hh
          cases hh
        have heq : (if s == h then c else s) = s := by
          rw [if_neg]
          simp [hsh]
        have hmem' : (if s == h then c else s) ∈ renameHeader df.headers h c :=
          List.mem_map.2 ⟨s, hmem, rfl⟩
        rwa [heq] at hmem'
      | none =>
        rw [validateColumnsAux, if_neg hcont, hfind]
        exact ih df s hcs hmem

theorem validateColumnsAux_canon_mem :
    ∀ (cs : List String) (df : DataFrame),
      (∀ c ∈ cs, strTrim (strLower c) = strLower c) →
      cs.Pairwise (fun a b => strLower a ≠ strLower b) →
      ∀ c ∈ cs, df.headers.any (canonMatch c) = true →
        c ∈ (validateColumnsAux cs df).1.headers := by
  intro cs
  induction cs with
  | nil => intro df _ _ c hc; cases hc
  | cons c₀ cs ih =>
    intro df hcanon hnd c hc hany
    obtain ⟨hndc, hnd'⟩ := List.pairwise_cons.1 hnd
    have hc₀ : strTrim (strLower c₀) = strLower c₀ :=
      hcanon c₀ (List.mem_cons_self c₀ cs)
    have hcanon' : ∀ x ∈ cs, strTrim (strLower x) = strLower x :=
      fun x hx => hcanon x (List.mem_cons_of_mem c₀ hx)
    rcases List.mem_cons.1 hc with rfl | hc'
    · -- the head column itself
      have hkeep : ∀ c' ∈ cs, canonMatch c' c = false := by
        intro c' h'
        rw [canonMatch, hc₀]
        exact beq_eq_false_iff_ne.2 (hndc c' h')
      by_cases hcont : df.headers.contains c
      · rw [validateColumnsAux, if_pos hcont]
        exact validateColumnsAux_keeps cs df c hkeep (by simpa using hcont)
      · cases hfind : df.headers.find? (canonMatch c) with
        | some h =>
          rw [validateColumnsAux, if_neg hcont, hfind]
          apply validateColumnsAux_keeps cs _ c hkeep
          have hh : h ∈ df.headers := List.mem_of_find?_eq_some hfind
          have heq : (if h == h then c else h) = c := by
            rw [if_pos (beq_self_eq_true h)]
          have hmem' : (if h == h then c else h) ∈ renameHeader df.headers h c :=
            List.mem_map.2 ⟨h, hh, rfl⟩
          rwa [heq] at hmem'
        | none =>
          exfalso
          rcases List.any_eq_true.1 hany with ⟨x, hx, hmx⟩
          have := List.find?_eq_none.1 hfind x hx
          exact this hmx
    · -- a later column
      by_cases hcont : df.headers.contains c₀
      · rw [validateColumnsAux, if_pos hcont]
        exact ih df hcanon' hnd' c hc' hany
      · cases hfind : df.headers.find? (canonMatch c₀) with
        | some h =>
          rw [validateColumnsAux, if_neg hcont, hfind]
          have hh : canonMatch c₀ h = true := List.find?_some hfind
          have hany' : (renameHeader df.headers h c₀).any (canonMatch c) = true := by
            rw [renameHeader, List.any_map]
            have hpt := any_eq_of_ptwise df.headers
              (canonMatch_rename_ptwise hh hc₀ (hndc c hc'))
            exact hpt.trans hany
          exact ih _ hcanon' hnd' c hc' hany'
        | none =>
          rw [validateColumnsAux, if_neg hcont, hfind]
          exact ih df hcanon' hnd' c hc' hany

theorem validateColumns_missing_eq (df : DataFrame) :
    (validateColumns df).2 = absentRequired df := by
  rw [validateColumns, absentRequired]
  exact validateColumnsAux_missing REQUIRED_COLUMNS df (by decide) (by decide)

end Csv

/-- Claim C4: If some required column has no header matching its canonical
name case-insensitively after whitespace-trimming, `parse_file` fails with a
single fatal error listing exactly the absent required columns by name; and
when every required column has such a (possibly case- or
whitespace-variant) header, `_validate_columns` reports nothing missing and
ends with every canonical column name present among the headers (variants
silently renamed to canonical form). -/
theorem C4_missing_columns (df : Csv.DataFrame) (b : Bool) :
    (Csv.absentRequired df ≠ [] →
      (Csv.parse_file ⟨b, .ok df⟩).success = false ∧
      (Csv.parse_file ⟨b, .ok df⟩).errors =
        ["Missing required columns: " ++
          String.intercalate ", " (Csv.absentRequired df)]) ∧
    (Csv.absentRequired df = [] →
      (Csv.validateColumns df).2 = [] ∧
      ∀ c ∈ Csv.REQUIRED_COLUMNS, c ∈ (Csv.validateColumns df).1.headers) := by
  have hm := Csv.validateColumns_missing_eq df
  constructor
  · intro hne
    have hvc : (Csv.validateColumns df).2.isEmpty = false := by
      rw [hm]
      cases hl : Csv.absentRequired df with
      | nil => exact absurd hl hne
      | cons e es => simp
    constructor
    · simp [Csv.parse_file, hvc]
    · simp [Csv.parse_file, hvc, hm, hne]
  · intro hnil
    have h2 : (Csv.validateColumns df).2 = [] := hm.trans hnil
    refine ⟨h2, ?_⟩
    intro c hc
    have hany : df.headers.any (Csv.canonMatch c) = true := by
      rw [Csv.absentRequired] at hnil
      have hall := List.filter_eq_nil_iff.1 hnil c hc
      rw [Csv.hasHeaderFor] at hall
      simpa using hall
    exact Csv.validateColumnsAux_canon_mem Csv.REQUIRED_COLUMNS df
      (by decide) (by decide) c hc hany

/-- Witness for C4: a concrete frame missing exactly `Pressure` (with a
whitespace variant of `Temperature` accepted), and a concrete frame where
every required column appears only as a case or whitespace variant. -/
theorem C4_missing_columns_witness :
    ((Csv.parse_file ⟨false, .ok Csv.missDF⟩).success = false ∧
     (Csv.parse_file ⟨false, .ok Csv.missDF⟩).errors =
       ["Missing required columns: " ++
         String.intercalate ", " (Csv.absentRequired Csv.missDF)]) ∧
    ((Csv.validateColumns Csv.variantDF).2 = [] ∧
     ∀ c ∈ Csv.REQUIRED_COLUMNS, c ∈ (Csv.validateColumns Csv.variantDF).1.headers) :=
  ⟨(C4_missing_columns Csv.missDF false).1 (by decide),
   (C4_missing_columns Csv.variantDF false).2 (by decide)⟩

/-- Claim C1, code divergence: Evaluating `parse_file` at a frame whose
second row misses its `Pressure` value: parsing reports success and emits
the warning "Dropped 1 rows with missing numeric values.", yet both rows —
including the one with the missing numeric value — are still present in the
returned frame.  The source's `_validate_data` computes
`df_clean = df.dropna(subset=[...])` into a local that is discarded, so the
rows counted as dropped are never actually removed, contradicting the
warning it emits and the claim. -/
theorem C1_rows_not_dropped :
    (Csv.parse_file ⟨false, .ok Csv.partialDF⟩).success = true ∧
    "Dropped 1 rows with missing numeric values." ∈
      (Csv.parse_file ⟨false, .ok Csv.partialDF⟩).warnings ∧
    (Csv.parse_file ⟨false, .ok Csv.partialDF⟩).df.rows.length = 2 ∧
    ((Csv.parse_file ⟨false, .ok Csv.partialDF⟩).df.rows.any (fun r =>
        Csv.cellIsNA (Csv.getCell
          (Csv.parse_file ⟨false, .ok Csv.partialDF⟩).df.headers r
          "pressure"))) = true :=
  ⟨by decide, by decide, by decide, by decide⟩

/-- Claim C9: Given the user's datasets newest-first (the ordering
`_enforce_dataset_limit` queries), the enforcement retains at most
`MAX_DATASETS_PER_USER` datasets, deletes nothing else (retained and deleted
partition the list), and every deleted dataset is at least as old as every
retained one — FIFO eviction of the oldest, keeping the most recent. -/
theorem C9_retention_cap (maxDatasets : ℕ) (ds : List Views.DatasetRec)
    (hs : List.Sorted Views.newestFirst ds) :
    (Views.enforceDatasetLimit maxDatasets ds).1.length ≤ maxDatasets ∧
    (Views.enforceDatasetLimit maxDatasets ds).1 ++
      (Views.enforceDatasetLimit maxDatasets ds).2 = ds ∧
    ∀ d ∈ (Views.enforceDatasetLimit maxDatasets ds).2,
      ∀ k ∈ (Views.enforceDatasetLimit maxDatasets ds).1,
        d.uploadedAt ≤ k.uploadedAt := by
  rw [Views.enforceDatasetLimit]
  by_cases h : maxDatasets < ds.length
  · rw [if_pos h]
    refine ⟨?_, List.take_append_drop _ _, ?_⟩
    · simp [List.length_take]
    · intro d hd k hk
      have hpw : List.Pairwise Views.newestFirst ds := hs
      rw [← List.take_append_drop maxDatasets ds, List.pairwise_append] at hpw
      exact hpw.2.2 k hk d hd
  · rw [if_neg h]
    refine ⟨by simp; omega, by simp, ?_⟩
    intro d hd
    cases hd

/-- Witness for C9: three datasets newest-first with a cap of two. -/
theorem C9_retention_cap_witness :
    (Views.enforceDatasetLimit 2 Views.exDatasets).1.length ≤ 2 ∧
    (Views.enforceDatasetLimit 2 Views.exDatasets).1 ++
      (Views.enforceDatasetLimit 2 Views.exDatasets).2 = Views.exDatasets ∧
    ∀ d ∈ (Views.enforceDatasetLimit 2 Views.exDatasets).2,
      ∀ k ∈ (Views.enforceDatasetLimit 2 Views.exDatasets).1,
        d.uploadedAt ≤ k.uploadedAt :=
  C9_retention_cap 2 Views.exDatasets (by decide)
